import Mathlib

/-
Verification of the win-store capture-and-normalization pipeline.

The definitions below are a shallow embedding of the background coordinator
(the debugger-event listener, the payload normalizers, the per-tab
aggregation store and the push/pull dispatcher) and of the content-script
merge helper.  Prices are modelled as exact rationals, machine numbers as
Nat/Int, JavaScript falsy-coalescing (x || y) as a zero/empty test, and the
JavaScript Map as an insertion-ordered association list.
-/

namespace WinStore

/-- JavaScript a || b for numeric rationals: 0 is falsy. -/
def orQ (a b : ℚ) : ℚ := if a = 0 then b else a

/-- JavaScript a || b for integers: 0 is falsy. -/
def orZ (a b : ℤ) : ℤ := if a = 0 then b else a

/-- JavaScript a || b for naturals: 0 is falsy. -/
def orN (a b : ℕ) : ℕ := if a = 0 then b else a

/-- JavaScript a || b for strings: the empty string is falsy. -/
def orS (a b : String) : String := if a = "" then b else a

/-! ## parseSoldText

Embedding of the background script's

  const parseSoldText = (text) => {
    if (!text) return 0
    const match = text.match(/(\d+(?:[.,]\d+)?)\s*(RB|JT)?/i)
    if (!match) return 0
    let num = parseFloat(match[1].replace(",", "."))
    const unit = match[2]?.toUpperCase()
    if (unit === "JT") num *= 1000000
    else if (unit === "RB") num *= 1000
    return Math.round(num)
  }

The regex starts with \d+, so the first match begins at the first digit of
the string, takes the maximal digit run, an optional [.,]-separated digit
run, optional whitespace and an optional case-insensitive RB/JT unit; if the
string holds no digit there is no match and the result is 0.
-/

/-- Numeric value of a decimal digit character. -/
def digitVal (c : Char) : ℕ := c.toNat - 48

/-- Consume the maximal leading run of decimal digits (the regex \d+),
returning their values and the rest of the character list. -/
def readDigits : List Char → List ℕ × List Char
  | [] => ([], [])
  | c :: cs =>
    if c.isDigit then
      let r := readDigits cs
      (digitVal c :: r.1, r.2)
    else ([], c :: cs)

/-- Drop characters until the first decimal digit (the regex engine scanning
for the leftmost position where \d+ can match). -/
def dropToDigit : List Char → List Char
  | [] => []
  | c :: cs => if c.isDigit then c :: cs else dropToDigit cs

/-- Consume the optional fractional part (?:[.,]\d+)? - a dot or comma
separator followed by at least one digit; otherwise consume nothing. -/
def readFracPart (l : List Char) : List ℕ × List Char :=
  match l with
  | c :: d :: rest =>
    if (c = '.' || c = ',') && d.isDigit then readDigits (d :: rest)
    else ([], l)
  | _ => ([], l)

/-- Skip the optional whitespace \s* before the unit. -/
def skipWs : List Char → List Char
  | [] => []
  | c :: cs => if c.isWhitespace then skipWs cs else c :: cs

/-- Multiplier unit of the sold-count text: none, RB (thousand) or JT
(million), matched case-insensitively. -/
inductive SoldUnit where
  | unitNone
  | rb
  | jt
deriving DecidableEq

/-- Read the optional two-letter case-insensitive unit (RB|JT)?. -/
def readUnit (l : List Char) : SoldUnit :=
  match l with
  | c :: d :: _ =>
    if c.toLower = 'r' ∧ d.toLower = 'b' then SoldUnit.rb
    else if c.toLower = 'j' ∧ d.toLower = 't' then SoldUnit.jt
    else SoldUnit.unitNone
  | _ => SoldUnit.unitNone

/-- Natural number denoted by a list of digit values (most significant
first). -/
def natOfDigits (l : List ℕ) : ℕ := l.foldl (fun a d => a * 10 + d) 0

/-- Multiplier applied to the parsed number for each unit. -/
def soldMult : SoldUnit → ℕ
  | SoldUnit.unitNone => 1
  | SoldUnit.rb => 1000
  | SoldUnit.jt => 1000000

/-- Round-to-nearest (ties up) of the nonnegative fraction n / d, computed
with natural division; roundDiv_eq_round proves it equal to Math.round of
the exact rational n / d. -/
def roundDiv (n d : ℕ) : ℕ := (2 * n + d) / (2 * d)

/-- Embedding of parseSoldText: the first decimal number of the text (comma
or dot as decimal separator, value intPart + fracPart / 10 ^ fracLen) is
scaled by the optional RB/JT unit and rounded to the nearest integer; the
result is 0 when the text holds no digit.  The parseFloat/Math.round value
is computed exactly over the integers via roundDiv. -/
def parseSoldText (s : String) : ℕ :=
  match dropToDigit s.toList with
  | [] => 0
  | l =>
    let r1 := readDigits l
    let r2 := readFracPart r1.2
    let u := readUnit (skipWs r2.2)
    roundDiv ((natOfDigits r1.1 * 10 ^ r2.1.length + natOfDigits r2.1) * soldMult u)
      (10 ^ r2.1.length)

example : parseSoldText "10RB+ terjual" = 10000 := by decide
example : parseSoldText "1,5JT terjual" = 1500000 := by decide
example : parseSoldText "" = 0 := by decide
example : parseSoldText "terjual" = 0 := by decide
example : parseSoldText "2.5jt" = 2500000 := by decide
example : parseSoldText "7 rb" = 7000 := by decide
example : parseSoldText "123" = 123 := by decide

/-! ## Product records and the per-tab aggregation store

Embedding of processItems (background script lines 111-188) and of the
ShopData entry shopDataByTab[tabId].  The JavaScript Map is modelled as an
insertion-ordered association list; Map.set replaces the value in place when
the key is present and appends otherwise.
-/

/-- Raw product-list item as read by processItems: the fields the code
consults, with 0 / the empty string standing for an absent (undefined,
falsy) field exactly as the || chains treat them. -/
structure RawItem where
  itemid : ℕ := 0
  item_id : ℕ := 0
  shopid : ℕ := 0
  disp_price : ℚ := 0
  disp_strike : ℚ := 0
  disp_discount : ℚ := 0
  flat_price : ℚ := 0
  flat_discount : ℚ := 0
  hist_sold_text : String := ""
  monthly_sold_text : String := ""
  legacy_hist_sold : ℕ := 0
  rating_star : ℚ := 0
  rating_count0 : ℕ := 0
  stock : ℕ := 0
  liked_count : ℕ := 0
  cmt_count : ℕ := 0
  asset_name : String := ""
  flat_name : String := ""
  asset_image : String := ""
  flat_image : String := ""
  ctime : ℕ := 0
  catid : ℕ := 0
  brand_disp : String := ""
  flat_brand : String := ""
deriving DecidableEq

/-- Canonical product record stored in the per-tab Map. -/
structure Product where
  itemid : ℕ
  shopid : ℕ
  name : String
  price : ℚ
  original_price : ℚ
  discount : ℚ
  historical_sold : ℕ
  historical_sold_text : String
  monthly_sold : ℕ
  monthly_sold_text : String
  stock : ℕ
  rating_star : ℚ
  rating_count : ℕ
  liked_count : ℕ
  comment_count : ℕ
  image : String
  ctime : ℕ
  catid : ℕ
  brand : String
deriving DecidableEq

/-- Key used by processItems: item.itemid || item.item_id (0 when both are
absent, in which case the item is skipped). -/
def itemKey (it : RawItem) : ℕ := if it.itemid ≠ 0 then it.itemid else it.item_id

/-- Record built by processItems for one raw item (lines 128-184), price
rescale and all field fallbacks included. -/
def mkProduct (it : RawItem) : Product :=
  let rawPrice := orQ it.disp_price it.flat_price
  let rawStrike := it.disp_strike
  let price := if rawPrice > 1000000 then rawPrice / 100000 else rawPrice
  let strike := if rawPrice > 1000000 then rawStrike / 100000 else rawStrike
  { itemid := itemKey it
    shopid := it.shopid
    name := orS it.asset_name it.flat_name
    price := price
    original_price := orQ strike price
    discount := orQ it.disp_discount it.flat_discount
    historical_sold := orN (parseSoldText it.hist_sold_text) it.legacy_hist_sold
    historical_sold_text := it.hist_sold_text
    monthly_sold := parseSoldText it.monthly_sold_text
    monthly_sold_text := it.monthly_sold_text
    stock := it.stock
    rating_star := it.rating_star
    rating_count := it.rating_count0
    liked_count := it.liked_count
    comment_count := it.cmt_count
    image := orS it.asset_image it.flat_image
    ctime := it.ctime
    catid := it.catid
    brand := orS it.brand_disp it.flat_brand }

/-- JavaScript Map.set keyed through the function key: replace in place when
the key is already bound, append otherwise. -/
def upsertBy (key : α → ℕ) (m : List α) (a : α) : List α :=
  if key a ∈ m.map key then
    m.map (fun b => if key b = key a then a else b)
  else m ++ [a]

/-- Fold a batch into a keyed list with upsertBy. -/
def foldUpsert (key : α → ℕ) (m : List α) (l : List α) : List α :=
  l.foldl (upsertBy key) m

/-- Shop-info record stored wholesale for a tab (the code keeps the raw
data.data object; its identifying fields suffice here). -/
structure ShopInfo where
  shopid : ℕ := 0
  name : String := ""
deriving DecidableEq

/-- Per-tab aggregation entry shopDataByTab[tabId]. -/
structure ShopData where
  shopInfo : Option ShopInfo
  products : List (ℕ × Product)
  totalCaptured : ℕ
  totalExpected : ℕ
deriving DecidableEq

/-- Fresh empty aggregation entry. -/
def emptyShopData : ShopData :=
  { shopInfo := none, products := [], totalCaptured := 0, totalExpected := 0 }

/-- Loop body of processItems: skip items with a falsy id, otherwise
Map.set(itemId, product). -/
def processItemsCore (m : List (ℕ × Product)) (items : List RawItem) :
    List (ℕ × Product) :=
  items.foldl
    (fun acc it =>
      if itemKey it = 0 then acc
      else upsertBy Prod.fst acc (itemKey it, mkProduct it)) m

/-- Embedding of processItems(tabId, items, totalFromApi): lazily create the
tab entry, adopt a truthy totalFromApi as totalExpected, upsert every item
carrying an id, and recompute totalCaptured as the map size. -/
def processItems (d : Option ShopData) (items : List RawItem) (totalFromApi : ℕ) :
    ShopData :=
  let d0 := d.getD emptyShopData
  let d1 := if totalFromApi ≠ 0 then { d0 with totalExpected := totalFromApi } else d0
  let m := processItemsCore d1.products items
  { d1 with products := m, totalCaptured := m.length }

/-- Embedding of the content-script mergeProducts (store page pagination):
existing then new products are poured into a Map keyed by itemid and the
values are read back in insertion order. -/
def mergeProducts (existing newProducts : List Product) : List Product :=
  foldUpsert Product.itemid (foldUpsert Product.itemid [] existing) newProducts

/-! ## Dispatcher: push (notifyContentScript) and pull (GET_CAPTURED_DATA)

The SHOPEE_DATA_UPDATE payload and the GET_CAPTURED_DATA response are built
from the same tab entry by the same conversion (Map values to array); a pull
with no tab entry answers the explicit { data: null }.
-/

/-- Snapshot sent in a SHOPEE_DATA_UPDATE push and in a GET_CAPTURED_DATA
response. -/
structure Snapshot where
  shopInfo : Option ShopInfo
  products : List Product
  totalProducts : ℕ
  totalExpected : ℕ
deriving DecidableEq

/-- Conversion of a tab entry to the message payload (Array.from of the Map
values plus the counters), shared by notifyContentScript and the
GET_CAPTURED_DATA branch. -/
def mkSnapshot (d : ShopData) : Snapshot :=
  let productsArray := d.products.map Prod.snd
  { shopInfo := d.shopInfo
    products := productsArray
    totalProducts := productsArray.length
    totalExpected := d.totalExpected }

/-- GET_CAPTURED_DATA: the snapshot of the tab entry, or null when the tab
has no entry. -/
def pullCaptured (st : Option ShopData) : Option Snapshot :=
  st.map mkSnapshot

/-- Background events that touch a tab's aggregation entry. -/
inductive Ev where
  | upsert (items : List RawItem) (total : ℕ)
  | navigate
  | forceRefresh
  | setShop (si : ShopInfo)
deriving DecidableEq

/-- One step of the background coordinator over (tab entry, last pushed
SHOPEE_DATA_UPDATE payload): a products capture runs processItems and pushes
the fresh snapshot; navigation and FORCE_REFRESH_CAPTURE reset the entry
without pushing; a shop capture stores the info and pushes. -/
def stepEv : Option ShopData × Option Snapshot → Ev → Option ShopData × Option Snapshot
  | (st, _), Ev.upsert items total =>
    let d := processItems st items total
    (some d, some (mkSnapshot d))
  | (_, last), Ev.navigate => (some emptyShopData, last)
  | (_, last), Ev.forceRefresh => (some emptyShopData, last)
  | (st, _), Ev.setShop si =>
    let d := { st.getD emptyShopData with shopInfo := some si }
    (some d, some (mkSnapshot d))

/-- Run a tab's event trace from the initial state (no entry, nothing ever
pushed). -/
def runTrace (evs : List Ev) : Option ShopData × Option Snapshot :=
  evs.foldl stepEv (none, none)

/-! ## Category payload normalization (getResponseBody, category branch)

One traversal of data.data.units builds both the product list and the
OfficialStore accumulator map; the output store list gets avgRating at
output time and is sorted descending by product count (Array.prototype.sort
is stable, modelled by a stable insertion sort).
-/

/-- item_data.shop_data of a category unit. -/
structure CatShopData where
  shop_name : String := ""
  shop_location : String := ""
deriving DecidableEq

/-- unit.item.item_data fields read by the category branch. -/
structure CatItemData where
  itemid : ℕ := 0
  shopid : ℕ := 0
  disp_price : ℚ := 0
  disp_strike : ℚ := 0
  disp_discount : ℚ := 0
  hist_sold_text : String := ""
  monthly_sold_text : String := ""
  rating_star : ℚ := 0
  rating_count0 : ℕ := 0
  liked_count : ℕ := 0
  shop_data : CatShopData := {}
deriving DecidableEq

/-- unit.item of a category unit: item_data plus the displayed asset (name,
image, seller_flag.name). -/
structure CatUnitItem where
  item_data : CatItemData := {}
  asset_name : String := ""
  asset_image : String := ""
  seller_flag_name : String := ""
deriving DecidableEq

/-- One element of data.data.units; item is absent for non-item units. -/
structure RawUnit where
  data_type : String := ""
  item : Option CatUnitItem := none
deriving DecidableEq

/-- Normalized category product. -/
structure CatProduct where
  itemid : ℕ
  shopid : ℕ
  name : String
  image : String
  price : ℚ
  originalPrice : ℚ
  discount : ℚ
  historicalSold : ℕ
  historicalSoldText : String
  monthlySold : ℕ
  monthlySoldText : String
  rating : ℚ
  ratingCount : ℕ
  likedCount : ℕ
  isOfficialShop : Bool
  isPreferredPlus : Bool
  shopName : String
  shopLocation : String
deriving DecidableEq

/-- OfficialStore accumulator value kept in officialStoresMap. -/
structure StoreAcc where
  shopid : ℕ
  shopName : String
  shopLocation : String
  productCount : ℕ
  totalSold : ℕ
  totalRating : ℚ
  ratingSum : ℕ
deriving DecidableEq

/-- OfficialStore entry emitted to the cache: the accumulator plus the
avgRating derived at output time. -/
structure StoreOut where
  shopid : ℕ
  shopName : String
  shopLocation : String
  productCount : ℕ
  totalSold : ℕ
  totalRating : ℚ
  ratingSum : ℕ
  avgRating : ℚ
deriving DecidableEq

/-- Category product built from one unit (lines 317-364), with the same
price rescale guarded by the main price. -/
def mkCatProduct (ui : CatUnitItem) : CatProduct :=
  let idata := ui.item_data
  let rawPrice := idata.disp_price
  let rawOriginal := orQ idata.disp_strike rawPrice
  let price := if rawPrice > 1000000 then rawPrice / 100000 else rawPrice
  let originalPrice := if rawPrice > 1000000 then rawOriginal / 100000 else rawOriginal
  { itemid := idata.itemid
    shopid := idata.shopid
    name := ui.asset_name
    image := ui.asset_image
    price := price
    originalPrice := originalPrice
    discount := idata.disp_discount
    historicalSold := parseSoldText idata.hist_sold_text
    historicalSoldText := idata.hist_sold_text
    monthlySold := parseSoldText idata.monthly_sold_text
    monthlySoldText := idata.monthly_sold_text
    rating := idata.rating_star
    ratingCount := idata.rating_count0
    likedCount := idata.liked_count
    isOfficialShop := ui.seller_flag_name = "OFFICIAL_SHOP"
    isPreferredPlus := ui.seller_flag_name = "PREFERRED_PLUS"
    shopName := idata.shop_data.shop_name
    shopLocation := idata.shop_data.shop_location }

/-- officialStoresMap update for one official-store item: bump the existing
accumulator or open a fresh one. -/
def updateStore (m : List (ℕ × StoreAcc)) (idata : CatItemData) (hist : ℕ)
    (rating : ℚ) : List (ℕ × StoreAcc) :=
  if idata.shopid ∈ m.map Prod.fst then
    m.map (fun e =>
      if e.1 = idata.shopid then
        (e.1, { e.2 with
                  productCount := e.2.productCount + 1
                  totalSold := e.2.totalSold + hist
                  totalRating := e.2.totalRating + rating
                  ratingSum := e.2.ratingSum + 1 })
      else e)
  else
    m ++ [(idata.shopid,
      { shopid := idata.shopid
        shopName := idata.shop_data.shop_name
        shopLocation := idata.shop_data.shop_location
        productCount := 1
        totalSold := hist
        totalRating := rating
        ratingSum := 1 })]

/-- Body of the single units.forEach traversal: skip non-item units, emit
the product, and track official stores in the same pass. -/
def catStep (acc : List CatProduct × List (ℕ × StoreAcc)) (u : RawUnit) :
    List CatProduct × List (ℕ × StoreAcc) :=
  if u.data_type ≠ "item" then acc
  else
    match u.item with
    | none => acc
    | some ui =>
      let p := mkCatProduct ui
      let stores :=
        if p.isOfficialShop && ui.item_data.shopid != 0 then
          updateStore acc.2 ui.item_data p.historicalSold p.rating
        else acc.2
      (acc.1 ++ [p], stores)

/-- OfficialStore output entry: the accumulator spread plus avgRating
computed at read time. -/
def mkStoreOut (s : StoreAcc) : StoreOut :=
  { shopid := s.shopid
    shopName := s.shopName
    shopLocation := s.shopLocation
    productCount := s.productCount
    totalSold := s.totalSold
    totalRating := s.totalRating
    ratingSum := s.ratingSum
    avgRating := if 0 < s.ratingSum then s.totalRating / (s.ratingSum : ℚ) else 0 }

/-- Stable insertion of a store into a list sorted descending by product
count, matching the stable Array.prototype.sort with the comparator
b.productCount - a.productCount. -/
def insertStore (s : StoreOut) : List StoreOut → List StoreOut
  | [] => [s]
  | t :: ts =>
    if t.productCount ≤ s.productCount then s :: t :: ts
    else t :: insertStore s ts

/-- Stable sort of the official stores, descending by product count. -/
def sortStores : List StoreOut → List StoreOut
  | [] => []
  | s :: ss => insertStore s (sortStores ss)

/-- Category normalization: one traversal of the units producing the product
list and the OfficialStore aggregate, the latter finalized with avgRating
and sorted descending by product count. -/
def processCategory (units : List RawUnit) : List CatProduct × List StoreOut :=
  let acc := units.foldl catStep ([], [])
  (acc.1, sortStores ((acc.2.map Prod.snd).map mkStoreOut))

/-! ## Search and category capture caches (race-resolution layer)

The search branch extracts items from one of three response shapes and only
a capture with at least one extracted item replaces searchDataByTab[tabId]
and sends SHOPEE_SEARCH_UPDATE; the category branch is guarded by a
non-empty data.data.units list.
-/

/-- One element of a search items array: possibly wrapped in item_basic
(item.item_basic || item). -/
structure SearchEntry where
  item_basic : Option RawItem := none
  plain : RawItem := {}
deriving DecidableEq

/-- item.item_basic || item for one search entry. -/
def unwrapEntry (e : SearchEntry) : RawItem := e.item_basic.getD e.plain

/-- Search response body fields consulted by the search branch; none stands
for an absent container. -/
structure RawSearchBody where
  cc_item_cards : Option (List RawItem) := none
  data_items : Option (List SearchEntry) := none
  root_items : Option (List SearchEntry) := none
  dd_total : ℕ := 0
  dd_total_count : ℕ := 0
  root_total_count : ℕ := 0
deriving DecidableEq

/-- Item extraction of the search branch (lines 269-282): centralized item
cards first, then data.items, then root items, each with its own
total-count fallback chain. -/
def extractSearch (b : RawSearchBody) : List RawItem × ℕ :=
  match b.cc_item_cards with
  | some cards => (cards, orN b.dd_total (orN b.dd_total_count cards.length))
  | none =>
    match b.data_items with
    | some es =>
      let items := es.map unwrapEntry
      (items, orN b.dd_total_count (orN b.dd_total items.length))
    | none =>
      match b.root_items with
      | some es =>
        let items := es.map unwrapEntry
        (items, orN b.root_total_count items.length)
      | none => ([], 0)

/-- searchDataByTab[tabId] entry. -/
structure SearchCache where
  items : List RawItem
  totalCount : ℕ
  timestamp : ℕ
deriving DecidableEq

/-- Search branch effect on the cache: (new cache, pushed
SHOPEE_SEARCH_UPDATE payload); a capture with no extracted item leaves the
cache untouched and pushes nothing. -/
def searchCapture (cache : Option SearchCache) (b : RawSearchBody) (now : ℕ) :
    Option SearchCache × Option SearchCache :=
  let r := extractSearch b
  if 0 < r.1.length then
    let c : SearchCache := { items := r.1, totalCount := r.2, timestamp := now }
    (some c, some c)
  else (cache, none)

/-- categoryDataByTab[tabId] entry. -/
structure CatCache where
  products : List CatProduct
  officialStores : List StoreOut
  totalCount : ℕ
  timestamp : ℕ
deriving DecidableEq

/-- Category branch effect on the cache: guarded by a non-empty units list
(data.data.units || []). -/
def catCapture (cache : Option CatCache) (units : List RawUnit) (total now : ℕ) :
    Option CatCache × Option CatCache :=
  if 0 < units.length then
    let r := processCategory units
    let c : CatCache :=
      { products := r.1, officialStores := r.2, totalCount := total, timestamp := now }
    (some c, some c)
  else (cache, none)

/-! ## Response classifier (chrome.debugger.onEvent listener, lines 51-93)

Substring checks against the response URL; the search and category matches
return early so the generic product-list check never also fires for them.
-/

/-- Payload kinds the listener can hand to getResponseBody. -/
inductive Kind where
  | shop
  | pdp
  | search
  | category
  | products
deriving DecidableEq

/-- Endpoint substring for shop base info. -/
def shopBasePat : String := "/api/v4/shop/get_shop_base"

/-- Endpoint substring for the product-detail page. -/
def pdpPat : String := "/api/v4/pdp/get_pc"

/-- Endpoint substring for search results. -/
def searchPat : String := "/api/v4/search/search_items"

/-- Endpoint substring for the category landing page. -/
def categoryPat : String := "/api/v4/recommend/recommend_v2"

/-- Generic product-list endpoint substrings. -/
def recPat : String := "/api/v4/recommend/recommend"

/-- Shop recommended-items endpoint substring. -/
def rcmdItemsPat : String := "/api/v4/shop/rcmd_items"

/-- PDP list-by-category endpoint substring. -/
def listByCatPat : String := "/api/v4/pdp/list_by_category"

/-- Shop page category tab endpoint substring. -/
def shopTabPat : String := "shop_page_category_tab"

/-- Homepage category list endpoint substring. -/
def homepagePat : String := "/api/v4/pages/get_homepage_category_list"

/-- url.includes(pat): pat occurs contiguously inside url. -/
def hasSub (url pat : String) : Bool := decide (pat.toList <:+: url.toList)

/-- All nine endpoint substrings the listener checks. -/
def allPats : List String :=
  [shopBasePat, pdpPat, searchPat, categoryPat, recPat, rcmdItemsPat,
   listByCatPat, shopTabPat, homepagePat]

/-- Classifier: the list of kinds the listener fetches a body for, in check
order; the search and category branches return early, skipping the generic
product-list check. -/
def classify (url : String) : List Kind :=
  (if hasSub url shopBasePat then [Kind.shop] else []) ++
  (if hasSub url pdpPat then [Kind.pdp] else []) ++
  (if hasSub url searchPat then [Kind.search]
   else if hasSub url categoryPat then [Kind.category]
   else if hasSub url recPat || hasSub url rcmdItemsPat || hasSub url listByCatPat
          || hasSub url shopTabPat || hasSub url homepagePat then [Kind.products]
   else [])

/-! ## Response body resolver (getResponseBody retry policy, lines 191-207
and 541-553)

One attempt = Network.getResponseBody plus parsing and processing the body.
The first attempt waits a fixed 100ms; a failure whose message contains "No
data found" is retried after a fixed 200ms while retryCount < MAX_RETRIES;
any other failure is logged and terminal.  The outcome of attempt number
retryCount is given by an oracle.
-/

/-- Outcome of one fetch-and-process attempt. -/
inductive FetchOutcome where
  | success
  | failure (msg : String)
deriving DecidableEq

/-- errorMessage.includes("No data found"): the failure is attributable to
the response body not being buffered yet. -/
def isTransient (msg : String) : Bool := hasSub msg "No data found"

/-- Observable trace of one getResponseBody resolution: number of attempts
made, the delays awaited (in ms, in order) and whether a body was finally
processed.  Failure is only ever recorded (logged), never thrown to a
caller. -/
structure ResolveTrace where
  attempts : ℕ
  delays : List ℕ
  success : Bool
deriving DecidableEq

/-- Fixed retry bound MAX_RETRIES = 3. -/
def MAX_RETRIES : ℕ := 3

/-- Fixed retry backoff RETRY_DELAY = 200 ms. -/
def RETRY_DELAY : ℕ := 200

/-- Recursion of getResponseBody from a given retryCount; the structural
fuel only bounds the recursion depth and never runs out when the call
starts at retryCount = 0 with fuel MAX_RETRIES + 1 (the retryCount <
MAX_RETRIES guard fires first). -/
def resolveGo (oracle : ℕ → FetchOutcome) : ℕ → ℕ → ResolveTrace
  | _, 0 => { attempts := 0, delays := [], success := false }
  | retryCount, fuel + 1 =>
    let pre : List ℕ := if retryCount = 0 then [100] else []
    match oracle retryCount with
    | FetchOutcome.success => { attempts := 1, delays := pre, success := true }
    | FetchOutcome.failure msg =>
      if isTransient msg ∧ retryCount < MAX_RETRIES then
        let r := resolveGo oracle (retryCount + 1) fuel
        { attempts := 1 + r.attempts
          delays := pre ++ RETRY_DELAY :: r.delays
          success := r.success }
      else { attempts := 1, delays := pre, success := false }

/-- Full resolution of one intercepted response, starting at retryCount = 0. -/
def resolve (oracle : ℕ → FetchOutcome) : ResolveTrace :=
  resolveGo oracle 0 (MAX_RETRIES + 1)

/-! ## Product-detail (PDP) normalization (getResponseBody, pdp branch)

The pdp branch divides every truthy price field by 100000 unconditionally
(item.price ? item.price / 100000 : 0), for the item and for every model.
-/

/-- Raw PDP model/variant fields read by the pdp branch. -/
structure RawPdpModel where
  model_id : ℕ := 0
  modelid : ℕ := 0
  name : String := ""
  price : ℚ := 0
  price_before_discount : ℚ := 0
  stock : ℕ := 0
  normal_stock : ℕ := 0
  sold : ℕ := 0
deriving DecidableEq

/-- Raw PDP item fields read by the pdp branch (price-relevant subset plus
identity). -/
structure RawPdpItem where
  item_id : ℕ := 0
  itemid : ℕ := 0
  shop_id : ℕ := 0
  shopid : ℕ := 0
  title : String := ""
  name : String := ""
  price : ℚ := 0
  price_min : ℚ := 0
  price_max : ℚ := 0
  price_before_discount : ℚ := 0
  raw_discount : ℚ := 0
  show_discount : ℚ := 0
  stock : ℕ := 0
  normal_stock : ℕ := 0
  models : List RawPdpModel := []
deriving DecidableEq

/-- Normalized PDP variant. -/
structure PdpModelOut where
  modelid : ℕ
  name : String
  price : ℚ
  price_before_discount : ℚ
  stock : ℕ
  sold : ℕ
deriving DecidableEq

/-- Normalized PDP record (price-relevant subset of productInfo). -/
structure PdpOut where
  itemid : ℕ
  shopid : ℕ
  name : String
  price : ℚ
  price_min : ℚ
  price_max : ℚ
  price_before_discount : ℚ
  discount : ℚ
  stock : ℕ
  models : List PdpModelOut
deriving DecidableEq

/-- Unconditional rescale rule the pdp branch actually applies: v ? v /
100000 : 0 (stated by the amended claim; processPdp below inlines it
literally from the source). -/
def pdpRescale (v : ℚ) : ℚ := if v ≠ 0 then v / 100000 else 0

/-- Embedding of the pdp branch productInfo construction (lines 431-507,
price-relevant fields): every truthy price is divided by 100000 regardless
of its magnitude. -/
def processPdp (item : RawPdpItem) : PdpOut :=
  { itemid := orN item.item_id item.itemid
    shopid := orN item.shop_id item.shopid
    name := orS item.title item.name
    price := if item.price ≠ 0 then item.price / 100000 else 0
    price_min := if item.price_min ≠ 0 then item.price_min / 100000 else 0
    price_max := if item.price_max ≠ 0 then item.price_max / 100000 else 0
    price_before_discount :=
      if item.price_before_discount ≠ 0 then item.price_before_discount / 100000 else 0
    discount := orQ item.raw_discount item.show_discount
    stock := orN item.stock item.normal_stock
    models := item.models.map (fun (m : RawPdpModel) =>
      ({ modelid := orN m.model_id m.modelid
         name := m.name
         price := if m.price ≠ 0 then m.price / 100000 else 0
         price_before_discount :=
           if m.price_before_discount ≠ 0 then m.price_before_discount / 100000 else 0
         stock := orN m.stock m.normal_stock
         sold := m.sold } : PdpModelOut)) }

/-! ## Lemmas about the keyed upsert -/

theorem map_key_upsertBy_of_mem {key : α → ℕ} {m : List α} {a : α}
    (h : key a ∈ m.map key) : (upsertBy key m a).map key = m.map key := by
  unfold upsertBy
  rw [if_pos h, List.map_map]
  refine List.map_congr_left fun b _ => ?_
  by_cases hb : key b = key a
  · simp [Function.comp, hb]
  · simp [Function.comp, hb]

theorem map_key_upsertBy_of_not_mem {key : α → ℕ} {m : List α} {a : α}
    (h : key a ∉ m.map key) :
    (upsertBy key m a).map key = m.map key ++ [key a] := by
  unfold upsertBy
  rw [if_neg h, List.map_append]
  rfl

theorem length_upsertBy_of_mem {key : α → ℕ} {m : List α} {a : α}
    (h : key a ∈ m.map key) : (upsertBy key m a).length = m.length := by
  unfold upsertBy
  rw [if_pos h, List.length_map]

theorem length_upsertBy_of_not_mem {key : α → ℕ} {m : List α} {a : α}
    (h : key a ∉ m.map key) : (upsertBy key m a).length = m.length + 1 := by
  unfold upsertBy
  rw [if_neg h, List.length_append, List.length_singleton]

theorem nodup_map_key_upsertBy {key : α → ℕ} {m : List α} {a : α}
    (h : (m.map key).Nodup) : ((upsertBy key m a).map key).Nodup := by
  by_cases hm : key a ∈ m.map key
  · rw [map_key_upsertBy_of_mem hm]; exact h
  · rw [map_key_upsertBy_of_not_mem hm]
    simp [List.nodup_append, h, hm]

theorem foldUpsert_nil (key : α → ℕ) (m : List α) : foldUpsert key m [] = m := rfl

theorem foldUpsert_cons (key : α → ℕ) (m : List α) (a : α) (l : List α) :
    foldUpsert key m (a :: l) = foldUpsert key (upsertBy key m a) l := rfl

theorem nodup_map_key_foldUpsert {key : α → ℕ} (l : List α) :
    ∀ m : List α, (m.map key).Nodup → ((foldUpsert key m l).map key).Nodup := by
  induction l with
  | nil => intro m h; exact h
  | cons a l ih =>
    intro m h
    rw [foldUpsert_cons]
    exact ih _ (nodup_map_key_upsertBy h)

theorem mem_map_key_foldUpsert {key : α → ℕ} (l : List α) :
    ∀ (m : List α) (x : ℕ),
      (x ∈ (foldUpsert key m l).map key ↔ x ∈ m.map key ∨ x ∈ l.map key) := by
  induction l with
  | nil => intro m x; simp [foldUpsert_nil]
  | cons a l ih =>
    intro m x
    rw [foldUpsert_cons, ih]
    by_cases hm : key a ∈ m.map key
    · rw [map_key_upsertBy_of_mem hm]
      simp only [List.map_cons, List.mem_cons]
      constructor
      · rintro (h | h)
        · exact Or.inl h
        · exact Or.inr (Or.inr h)
      · rintro (h | h | h)
        · exact Or.inl h
        · exact Or.inl (h ▸ hm)
        · exact Or.inr h
    · rw [map_key_upsertBy_of_not_mem hm]
      simp only [List.mem_append, List.mem_singleton, List.map_cons, List.mem_cons]
      tauto

theorem length_foldUpsert {key : α → ℕ} (l : List α) :
    ∀ m : List α, (m.map key).Nodup →
      (foldUpsert key m l).length =
        m.length + ((l.map key).toFinset \ (m.map key).toFinset).card := by
  induction l with
  | nil => intro m _; simp [foldUpsert_nil]
  | cons a l ih =>
    intro m hm
    rw [foldUpsert_cons]
    by_cases hmem : key a ∈ m.map key
    · rw [ih _ (nodup_map_key_upsertBy hm), length_upsertBy_of_mem hmem,
        map_key_upsertBy_of_mem hmem]
      congr 2
      rw [List.map_cons, List.toFinset_cons,
        Finset.insert_sdiff_of_mem _ (List.mem_toFinset.mpr hmem)]
    · rw [ih _ (nodup_map_key_upsertBy hm), length_upsertBy_of_not_mem hmem,
        map_key_upsertBy_of_not_mem hmem]
      have hset : ((a :: l).map key).toFinset \ (m.map key).toFinset =
          insert (key a) ((l.map key).toFinset \ (m.map key).toFinset) := by
        rw [List.map_cons, List.toFinset_cons,
          Finset.insert_sdiff_of_not_mem _ (by simpa using hmem)]
      have hset2 : (l.map key).toFinset \ ((m.map key ++ [key a]).toFinset) =
          ((l.map key).toFinset \ (m.map key).toFinset).erase (key a) := by
        rw [List.toFinset_append]
        simp only [List.toFinset_cons, List.toFinset_nil, insert_emptyc_eq]
        rw [Finset.union_comm, ← Finset.insert_eq, Finset.sdiff_insert]
      rw [hset, hset2]
      by_cases hka : key a ∈ (l.map key).toFinset \ (m.map key).toFinset
      · rw [Finset.insert_eq_self.mpr hka]
        have := Finset.card_erase_add_one hka
        omega
      · rw [Finset.card_insert_of_not_mem hka,
          Finset.erase_eq_of_not_mem hka]
        omega

theorem foldUpsert_fresh {key : α → ℕ} (l : List α) :
    ∀ acc : List α, ((acc ++ l).map key).Nodup → foldUpsert key acc l = acc ++ l := by
  induction l with
  | nil => intro acc _; simp [foldUpsert_nil]
  | cons a l ih =>
    intro acc h
    have hnot : key a ∉ acc.map key := by
      intro hmem
      rw [List.map_append, List.nodup_append] at h
      exact h.2.2 hmem (by simp)
    rw [foldUpsert_cons]
    unfold upsertBy
    rw [if_neg hnot]
    have := ih (acc ++ [a]) (by simpa using h)
    simpa using this

/-! ## Invariants of processItems and mergeProducts (claim C3) -/

/-- Item ids a batch actually submits: the keys of the items that are not
skipped for lacking an id. -/
def batchIds (items : List RawItem) : List ℕ :=
  (items.filter (fun it => itemKey it != 0)).map itemKey

/-- All ids submitted by a sequence of (items, totalFromApi) batches. -/
def submittedIds (batches : List (List RawItem × ℕ)) : List ℕ :=
  (batches.map (fun b => batchIds b.1)).flatten

/-- Feed a sequence of captured batches through processItems, starting from
a tab with no entry. -/
def runBatches (batches : List (List RawItem × ℕ)) : Option ShopData :=
  batches.foldl (fun st b => some (processItems st b.1 b.2)) none

theorem processItemsCore_eq (items : List RawItem) :
    ∀ m : List (ℕ × Product),
      processItemsCore m items =
        foldUpsert Prod.fst m
          ((items.filter (fun it => itemKey it != 0)).map
            (fun it => (itemKey it, mkProduct it))) := by
  induction items with
  | nil => intro m; rfl
  | cons it its ih =>
    intro m
    by_cases h : itemKey it = 0
    · have : processItemsCore m (it :: its) = processItemsCore m its := by
        simp [processItemsCore, h]
      rw [this, ih, List.filter_cons]
      simp [h]
    · have : processItemsCore m (it :: its) =
          processItemsCore (upsertBy Prod.fst m (itemKey it, mkProduct it)) its := by
        simp [processItemsCore, h]
      rw [this, ih, List.filter_cons]
      simp only [h, bne_iff_ne, ne_eq, not_false_eq_true, if_true, List.map_cons,
        foldUpsert_cons]

theorem map_fst_entries (items : List RawItem) :
    (((items.filter (fun it => itemKey it != 0)).map
        (fun it => (itemKey it, mkProduct it))).map Prod.fst) = batchIds items := by
  rw [List.map_map]
  rfl

theorem processItems_products (st : Option ShopData) (items : List RawItem)
    (total : ℕ) :
    (processItems st items total).products =
      processItemsCore (st.getD emptyShopData).products items := by
  unfold processItems
  by_cases h : total ≠ 0 <;> simp [h]

theorem processItems_totalCaptured (st : Option ShopData) (items : List RawItem)
    (total : ℕ) :
    (processItems st items total).totalCaptured =
      (processItems st items total).products.length := by
  unfold processItems
  by_cases h : total ≠ 0 <;> simp [h]

theorem processItems_nodup (st : Option ShopData) (items : List RawItem) (total : ℕ)
    (h : ((st.getD emptyShopData).products.map Prod.fst).Nodup) :
    ((processItems st items total).products.map Prod.fst).Nodup := by
  rw [processItems_products, processItemsCore_eq]
  exact nodup_map_key_foldUpsert _ _ h

theorem processItems_mem_keys (st : Option ShopData) (items : List RawItem)
    (total : ℕ) (x : ℕ) :
    x ∈ (processItems st items total).products.map Prod.fst ↔
      x ∈ (st.getD emptyShopData).products.map Prod.fst ∨ x ∈ batchIds items := by
  rw [processItems_products, processItemsCore_eq, mem_map_key_foldUpsert,
    map_fst_entries]

theorem runBatches_inv (batches : List (List RawItem × ℕ)) :
    ∀ (st : Option ShopData) (base : List ℕ),
      (∀ d0, st = some d0 →
        ((d0.products.map Prod.fst).Nodup ∧
          ∀ k ∈ d0.products.map Prod.fst, k ∈ base)) →
      ∀ d, batches.foldl (fun s b => some (processItems s b.1 b.2)) st = some d →
        ((d.products.map Prod.fst).Nodup ∧
          ∀ k ∈ d.products.map Prod.fst, k ∈ base ++ submittedIds batches) := by
  induction batches with
  | nil =>
    intro st base hst d hd
    simp only [List.foldl_nil] at hd
    rcases hst d hd with ⟨h1, h2⟩
    exact ⟨h1, fun k hk => by simp [submittedIds]; exact h2 k hk⟩
  | cons b bs ih =>
    intro st base hst d hd
    simp only [List.foldl_cons] at hd
    have hst2 : ∀ d0, some (processItems st b.1 b.2) = some d0 →
        ((d0.products.map Prod.fst).Nodup ∧
          ∀ k ∈ d0.products.map Prod.fst, k ∈ base ++ batchIds b.1) := by
      intro d0 h0
      injection h0 with h0
      subst h0
      have hbase : ((st.getD emptyShopData).products.map Prod.fst).Nodup ∧
          ∀ k ∈ (st.getD emptyShopData).products.map Prod.fst, k ∈ base := by
        cases st with
        | none => simp [emptyShopData]
        | some d1 => exact hst d1 rfl
      refine ⟨processItems_nodup _ _ _ hbase.1, fun k hk => ?_⟩
      rcases (processItems_mem_keys _ _ _ k).mp hk with h | h
      · exact List.mem_append_left _ (hbase.2 k h)
      · exact List.mem_append_right _ h
    have := ih _ _ hst2 d hd
    refine ⟨this.1, fun k hk => ?_⟩
    have h2 := this.2 k hk
    simp only [List.mem_append] at h2 ⊢
    rcases h2 with (h | h) | h
    · exact Or.inl h
    · refine Or.inr ?_
      simp only [submittedIds, List.map_cons, List.flatten_cons, List.mem_append]
      exact Or.inl h
    · refine Or.inr ?_
      simp only [submittedIds, List.map_cons, List.flatten_cons, List.mem_append]
      exact Or.inr (by simpa [submittedIds] using h)

/-- C3: for every sequence of product batches fed to the per-tab upsert, the
resulting map's key set has no duplicate item ids and its size never exceeds
the number of distinct item ids ever submitted, the capture counter
totalCaptured equals the current map size after every upsert, and merging a
batch containing k new ids (k the number of distinct incoming ids not
already present) into an id-unique existing set of size A yields exactly
A + k records in mergeProducts. -/
theorem upsert_uniqueness_and_merge :
    (∀ (batches : List (List RawItem × ℕ)) (d : ShopData),
        runBatches batches = some d →
        ((d.products.map Prod.fst).Nodup ∧
          d.products.length ≤ (submittedIds batches).dedup.length ∧
          d.totalCaptured = d.products.length)) ∧
    (∀ (st : Option ShopData) (items : List RawItem) (total : ℕ),
        (processItems st items total).totalCaptured =
          (processItems st items total).products.length) ∧
    (∀ (existing newProducts : List Product),
        ((existing.map Product.itemid).Nodup) →
        (mergeProducts existing newProducts).length =
          existing.length +
            ((newProducts.map Product.itemid).toFinset \
              (existing.map Product.itemid).toFinset).card) := by
  refine ⟨?_, processItems_totalCaptured, ?_⟩
  · intro batches d hd
    have hinv := runBatches_inv batches none [] (by intro d0 h0; cases h0) d hd
    refine ⟨hinv.1, ?_, ?_⟩
    · have hsub : d.products.map Prod.fst ⊆ (submittedIds batches).dedup := by
        intro k hk
        have := hinv.2 k hk
        simp only [List.nil_append] at this
        exact List.mem_dedup.mpr this
      have hsp := List.subperm_of_subset hinv.1 hsub
      have := hsp.length_le
      simpa using this
    · rcases batches with _ | ⟨b, bs⟩
      · cases hd
      · have : ∀ (bs : List (List RawItem × ℕ)) (st : Option ShopData),
            (∀ d0, st = some d0 → d0.totalCaptured = d0.products.length) →
            ∀ d, bs.foldl (fun s b => some (processItems s b.1 b.2)) st = some d →
              d.totalCaptured = d.products.length := by
          intro bs
          induction bs with
          | nil =>
            intro st hst d hd
            simp only [List.foldl_nil] at hd
            exact hst d hd
          | cons b2 bs2 ih =>
            intro st hst d hd
            simp only [List.foldl_cons] at hd
            refine ih _ ?_ d hd
            intro d0 h0
            injection h0 with h0
            subst h0
            exact processItems_totalCaptured _ _ _
        refine this (b :: bs) none (by intro d0 h0; cases h0) d hd
  · intro existing newProducts h
    have hfresh : foldUpsert Product.itemid [] existing = existing := by
      have h2 := @foldUpsert_fresh Product Product.itemid existing []
      simpa using h2 h
    unfold mergeProducts
    rw [hfresh, length_foldUpsert _ _ h]

/-- Witness for upsert_uniqueness_and_merge at a one-batch trace and at the
empty merge. -/
theorem upsert_uniqueness_and_merge_witness :
    ((emptyShopData.products.map Prod.fst).Nodup ∧
      emptyShopData.products.length ≤
        (submittedIds [(([] : List RawItem), 0)]).dedup.length ∧
      emptyShopData.totalCaptured = emptyShopData.products.length) ∧
    (mergeProducts [] []).length =
      (([] : List Product)).length +
        (((([] : List Product)).map Product.itemid).toFinset \
          (((([] : List Product)).map Product.itemid).toFinset)).card :=
  ⟨upsert_uniqueness_and_merge.1 [(([] : List RawItem), 0)] emptyShopData (by decide),
   upsert_uniqueness_and_merge.2.2 [] [] (by decide)⟩

/-! ## Push/pull race resolution (claim C4) -/

theorem runTrace_append_one (evs : List Ev) (e : Ev) :
    runTrace (evs ++ [e]) = stepEv (runTrace evs) e := by
  unfold runTrace
  rw [List.foldl_append, List.foldl_cons, List.foldl_nil]

theorem processItemsCore_ne_nil (m : List (ℕ × Product)) (items : List RawItem)
    (h : ∃ it ∈ items, itemKey it ≠ 0) : processItemsCore m items ≠ [] := by
  rcases h with ⟨it, hmem, hkey⟩
  intro hnil
  have hk : itemKey it ∈ (processItemsCore m items).map Prod.fst := by
    rw [processItemsCore_eq, mem_map_key_foldUpsert, map_fst_entries]
    refine Or.inr ?_
    unfold batchIds
    exact List.mem_map_of_mem _ (List.mem_filter.mpr ⟨hmem, by simpa using hkey⟩)
  rw [hnil] at hk
  cases hk

/-- Counterexample to C4 as stated: after a single capture-free navigation
reset (lines 578-588 create the tab entry; nothing has been captured), a
GET_CAPTURED_DATA pull returns the non-null empty snapshot, not the claimed
explicit null result; a force refresh (lines 626-634) behaves the same. -/
theorem pull_before_capture_counterexample :
    pullCaptured (runTrace [Ev.navigate]).1 = some (mkSnapshot emptyShopData) ∧
    pullCaptured (runTrace [Ev.navigate]).1 ≠ none ∧
    pullCaptured (runTrace [Ev.forceRefresh]).1 ≠ none := by
  refine ⟨rfl, ?_, ?_⟩ <;> decide

theorem runTrace_capture_free (evs : List Ev) :
    ∀ p : Option ShopData × Option Snapshot,
      (∀ e ∈ evs, e = Ev.navigate ∨ e = Ev.forceRefresh) →
      (p.1 = none ∨ p.1 = some emptyShopData) →
      ((evs.foldl stepEv p).1 = none ∨
        (evs.foldl stepEv p).1 = some emptyShopData) := by
  induction evs with
  | nil => intro p _ hp; exact hp
  | cons e es ih =>
    intro p hfree _
    rcases p with ⟨st, last⟩
    rw [List.foldl_cons]
    refine ih _ (fun x hx => hfree x (by simp [hx])) ?_
    rcases hfree e (by simp) with he | he <;> subst he <;>
      exact Or.inr rfl

/-- C4 (amended): a GET_CAPTURED_DATA pull on a tab with no entry answers
the explicit null, and on a tab whose entry was created capture-free (by
navigation resets or force refreshes only) answers either that null or the
empty snapshot (no shopInfo, empty products, zero counts); after a trace
ending in an upsert of a batch holding at least one identified item, the
pull answer equals the snapshot most recently pushed via SHOPEE_DATA_UPDATE
built from the same tab state, and that snapshot is non-empty. -/
theorem pull_push_race_resolution :
    pullCaptured none = none ∧ (runTrace []).1 = none ∧
    (∀ evs : List Ev,
      (∀ e ∈ evs, e = Ev.navigate ∨ e = Ev.forceRefresh) →
      (pullCaptured (runTrace evs).1 = none ∨
        pullCaptured (runTrace evs).1 = some (mkSnapshot emptyShopData))) ∧
    (∀ (evs : List Ev) (items : List RawItem) (total : ℕ),
      (∃ it ∈ items, itemKey it ≠ 0) →
      (pullCaptured (runTrace (evs ++ [Ev.upsert items total])).1 =
          (runTrace (evs ++ [Ev.upsert items total])).2 ∧
        (runTrace (evs ++ [Ev.upsert items total])).2 ≠ none ∧
        ∀ s, (runTrace (evs ++ [Ev.upsert items total])).2 = some s →
          s.products ≠ [])) := by
  refine ⟨rfl, rfl, ?_, ?_⟩
  · intro evs hfree
    rcases runTrace_capture_free evs (none, none) hfree (Or.inl rfl) with h | h
    · refine Or.inl ?_
      unfold runTrace
      rw [h]
      rfl
    · refine Or.inr ?_
      unfold runTrace
      rw [h]
      rfl
  · intro evs items total h
    rw [runTrace_append_one]
    rcases hr : runTrace evs with ⟨st, last⟩
    simp only [stepEv]
    refine ⟨rfl, by simp, ?_⟩
    intro s hs
    injection hs with hs
    subst hs
    simp only [mkSnapshot, ne_eq, List.map_eq_nil_iff]
    rw [processItems_products]
    exact processItemsCore_ne_nil _ _ h

/-- Witness item carrying an id. -/
def wItem : RawItem := { itemid := 7 }

/-- Witness for pull_push_race_resolution at a capture-free one-event trace
and at the one-event trace upserting a single identified item. -/
theorem pull_push_race_resolution_witness :
    (pullCaptured (runTrace [Ev.navigate]).1 = none ∨
      pullCaptured (runTrace [Ev.navigate]).1 = some (mkSnapshot emptyShopData)) ∧
    (pullCaptured (runTrace ([] ++ [Ev.upsert [wItem] 0])).1 =
        (runTrace ([] ++ [Ev.upsert [wItem] 0])).2 ∧
      (runTrace ([] ++ [Ev.upsert [wItem] 0])).2 ≠ none ∧
      ∀ s, (runTrace ([] ++ [Ev.upsert [wItem] 0])).2 = some s →
        s.products ≠ []) :=
  ⟨pull_push_race_resolution.2.2.1 [Ev.navigate] (by decide),
   pull_push_race_resolution.2.2.2 [] [wItem] 0 (by decide)⟩

/-! ## The sold-count parser contract (claim C2) -/

theorem roundDiv_eq_round (n d : ℕ) (hd : 0 < d) :
    (roundDiv n d : ℤ) = round ((n : ℚ) / (d : ℚ)) := by
  have hd0 : ((d : ℚ)) ≠ 0 := Nat.cast_ne_zero.mpr hd.ne'
  have h1 : (n : ℚ) / (d : ℚ) + 1 / 2 =
      (((2 * n + d : ℕ) : ℚ)) / (((2 * d : ℕ) : ℚ)) := by
    push_cast
    field_simp
    ring
  rw [round_eq, h1, Rat.floor_natCast_div_natCast]
  unfold roundDiv
  rw [Int.ofNat_ediv]

theorem dropToDigit_eq_nil (l : List Char) (h : ∀ c ∈ l, c.isDigit = false) :
    dropToDigit l = [] := by
  induction l with
  | nil => rfl
  | cons c cs ih =>
    have hc : c.isDigit = false := h c (by simp)
    simp only [dropToDigit, hc, Bool.false_eq_true, if_false]
    exact ih fun x hx => h x (by simp [hx])

/-- C2: parseSoldText maps the spec's four examples as stated, case and
separator variants included; any text without a digit (unparseable input,
the empty string in particular) yields 0; the function is total by
construction and roundDiv computes exactly the rounded integer value of the
extracted number times its unit. -/
theorem parseSoldText_contract :
    parseSoldText "10RB+ terjual" = 10000 ∧
    parseSoldText "1,5JT terjual" = 1500000 ∧
    parseSoldText "" = 0 ∧
    parseSoldText "terjual" = 0 ∧
    parseSoldText "10rb terjual" = 10000 ∧
    parseSoldText "2.5JT" = 2500000 ∧
    (∀ s : String, (∀ c ∈ s.toList, c.isDigit = false) → parseSoldText s = 0) ∧
    (∀ n d : ℕ, 0 < d → (roundDiv n d : ℤ) = round ((n : ℚ) / (d : ℚ))) := by
  refine ⟨by decide, by decide, by decide, by decide, by decide, by decide, ?_,
    roundDiv_eq_round⟩
  intro s h
  unfold parseSoldText
  rw [dropToDigit_eq_nil s.toList h]

/-- Witness for parseSoldText_contract on digit-free text and on the
rounding bridge. -/
theorem parseSoldText_contract_witness :
    parseSoldText "abc" = 0 ∧ (roundDiv 3 2 : ℤ) = round ((3 : ℚ) / (2 : ℚ)) :=
  ⟨parseSoldText_contract.2.2.2.2.2.2.1 "abc" (by decide),
   parseSoldText_contract.2.2.2.2.2.2.2 3 2 (by decide)⟩

/-! ## Category OfficialStore aggregation (claim C5) -/

theorem mem_insertStore {s x : StoreOut} :
    ∀ {l : List StoreOut}, x ∈ insertStore s l → x = s ∨ x ∈ l := by
  intro l
  induction l with
  | nil =>
    intro h
    simp only [insertStore, List.mem_singleton] at h
    exact Or.inl h
  | cons t ts ih =>
    intro h
    unfold insertStore at h
    by_cases hc : t.productCount ≤ s.productCount
    · rw [if_pos hc] at h
      rcases List.mem_cons.mp h with h | h
      · exact Or.inl h
      · exact Or.inr h
    · rw [if_neg hc] at h
      rcases List.mem_cons.mp h with h | h
      · exact Or.inr (List.mem_cons.mpr (Or.inl h))
      · rcases ih h with h2 | h2
        · exact Or.inl h2
        · exact Or.inr (List.mem_cons.mpr (Or.inr h2))

theorem pairwise_insertStore {s : StoreOut} :
    ∀ {l : List StoreOut},
      l.Pairwise (fun a b => b.productCount ≤ a.productCount) →
      (insertStore s l).Pairwise (fun a b => b.productCount ≤ a.productCount) := by
  intro l
  induction l with
  | nil => intro _; simp [insertStore]
  | cons t ts ih =>
    intro h
    rcases List.pairwise_cons.mp h with ⟨ht, hts⟩
    unfold insertStore
    by_cases hc : t.productCount ≤ s.productCount
    · rw [if_pos hc]
      refine List.pairwise_cons.mpr ⟨?_, h⟩
      intro b hb
      rcases List.mem_cons.mp hb with hb | hb
      · exact hb ▸ hc
      · exact le_trans (ht b hb) hc
    · rw [if_neg hc]
      refine List.pairwise_cons.mpr ⟨?_, ih hts⟩
      intro b hb
      rcases mem_insertStore hb with h2 | h2
      · exact h2 ▸ le_of_lt (lt_of_not_le hc)
      · exact ht b h2

theorem pairwise_sortStores (l : List StoreOut) :
    (sortStores l).Pairwise (fun a b => b.productCount ≤ a.productCount) := by
  induction l with
  | nil => simp [sortStores]
  | cons s ss ih => exact pairwise_insertStore ih

theorem mem_sortStores {x : StoreOut} :
    ∀ {l : List StoreOut}, x ∈ sortStores l → x ∈ l := by
  intro l
  induction l with
  | nil => intro h; simp only [sortStores] at h; exact h
  | cons s ss ih =>
    intro h
    rcases mem_insertStore h with h2 | h2
    · simp [h2]
    · simp [ih h2]

/-- First demo unit: official-store item of shop 77, 100 sold, rating 4. -/
def unitX1 : RawUnit :=
  { data_type := "item"
    item := some
      { item_data :=
          { itemid := 11, shopid := 77, disp_price := 1000, hist_sold_text := "100",
            rating_star := 4, shop_data := { shop_name := "StoreX" } }
        asset_name := "P1"
        seller_flag_name := "OFFICIAL_SHOP" } }

/-- Second demo unit: official-store item of the same shop 77, 50 sold,
rating 5. -/
def unitX2 : RawUnit :=
  { data_type := "item"
    item := some
      { item_data :=
          { itemid := 12, shopid := 77, disp_price := 2000, hist_sold_text := "50",
            rating_star := 5, shop_data := { shop_name := "StoreX" } }
        asset_name := "P2"
        seller_flag_name := "OFFICIAL_SHOP" } }

/-- Third demo unit: non-official item of shop 88. -/
def unitY : RawUnit :=
  { data_type := "item"
    item := some
      { item_data :=
          { itemid := 13, shopid := 88, disp_price := 3000, hist_sold_text := "10",
            rating_star := 3, shop_data := { shop_name := "StoreY" } }
        asset_name := "P3"
        seller_flag_name := "" } }

/-- The category scenario of the claim. -/
def demoUnits : List RawUnit := [unitX1, unitX2, unitY]

/-- Expected OfficialStore output entry for shop 77. -/
def storeX : StoreOut :=
  { shopid := 77, shopName := "StoreX", shopLocation := "", productCount := 2,
    totalSold := 150, totalRating := 9, ratingSum := 2, avgRating := 9 / 2 }

/-- C5: the demo category payload yields exactly one OfficialStore entry,
for shop 77, with productCount 2, totalSold 150 and avgRating 4.5, and no
entry for the non-official shop 88; in general, the official-store list is
sorted descending by product count and every emitted avgRating is the
quotient totalRating / ratingSum computed at output time. -/
theorem category_officialStore_aggregation :
    (processCategory demoUnits).2 = [storeX] ∧
    (∀ s ∈ (processCategory demoUnits).2, s.shopid ≠ 88) ∧
    (processCategory demoUnits).1.length = 3 ∧
    (∀ units : List RawUnit,
      (processCategory units).2.Pairwise (fun a b => b.productCount ≤ a.productCount)) ∧
    (∀ units : List RawUnit, ∀ s ∈ (processCategory units).2,
      0 < s.ratingSum → s.avgRating = s.totalRating / (s.ratingSum : ℚ)) := by
  have h100 : parseSoldText "100" = 100 := by decide
  have h50 : parseSoldText "50" = 50 := by decide
  have h10 : parseSoldText "10" = 10 := by decide
  have hmain : (processCategory demoUnits).2 = [storeX] := by
    simp only [processCategory, demoUnits, unitX1, unitX2, unitY, catStep,
      mkCatProduct, updateStore, mkStoreOut, sortStores, insertStore, storeX,
      List.foldl_cons, List.foldl_nil, h100, h50, h10]
    norm_num
  refine ⟨hmain, ?_, ?_, ?_, ?_⟩
  · intro s hs
    rw [hmain] at hs
    have := List.mem_singleton.mp hs
    subst this
    simp [storeX]
  · simp only [processCategory, demoUnits, unitX1, unitX2, unitY, catStep,
      mkCatProduct, List.foldl_cons, List.foldl_nil]
    norm_num
  · intro units
    exact pairwise_sortStores _
  · intro units s hs hpos
    have hmem := mem_sortStores hs
    rcases List.mem_map.mp hmem with ⟨acc, _, hacc⟩
    subst hacc
    simp only [mkStoreOut] at hpos ⊢
    rw [if_pos hpos]

/-- Witness for category_officialStore_aggregation: the no-88 conjunct and
the avgRating formula at the demo payload. -/
theorem category_officialStore_aggregation_witness :
    storeX.shopid ≠ 88 ∧
    storeX.avgRating = storeX.totalRating / (storeX.ratingSum : ℚ) :=
  ⟨category_officialStore_aggregation.2.1 storeX
      (by rw [category_officialStore_aggregation.1]; simp),
   category_officialStore_aggregation.2.2.2.2 demoUnits storeX
      (by rw [category_officialStore_aggregation.1]; simp) (by decide)⟩

/-! ## Classifier exclusivity and totality (claim C6) -/

/-- C6: the category endpoint URL pattern contains the generic product-list
pattern, yet a URL matching the search pattern is fetched as search and
never as product-list, a URL matching the category pattern is never fetched
as product-list (and, absent a search match, is fetched as category), and a
URL matching none of the known endpoint substrings triggers no body fetch at
all; classify is a total function. -/
theorem classify_exclusive :
    hasSub categoryPat recPat = true ∧
    (∀ url : String,
      (hasSub url searchPat = true →
        Kind.search ∈ classify url ∧ Kind.products ∉ classify url) ∧
      (hasSub url categoryPat = true → Kind.products ∉ classify url) ∧
      (hasSub url categoryPat = true → hasSub url searchPat = false →
        Kind.category ∈ classify url ∧ Kind.products ∉ classify url) ∧
      ((∀ p ∈ allPats, hasSub url p = false) → classify url = [])) := by
  refine ⟨by decide, ?_⟩
  intro url
  refine ⟨?_, ?_, ?_, ?_⟩
  · intro h
    constructor
    · simp only [classify, h, if_true]
      simp
    · simp only [classify, h, if_true, List.mem_append]
      split_ifs <;> simp
  · intro h
    by_cases hs : hasSub url searchPat
    · simp only [classify, hs, if_true, List.mem_append]
      split_ifs <;> simp
    · simp only [classify, hs, h, if_true, if_false, Bool.false_eq_true,
        List.mem_append]
      split_ifs <;> simp
  · intro h hs
    constructor
    · simp only [classify, hs, h, Bool.false_eq_true, if_false, if_true]
      simp
    · simp only [classify, hs, h, Bool.false_eq_true, if_false, if_true,
        List.mem_append]
      split_ifs <;> simp
  · intro h
    have h1 := h shopBasePat (by simp [allPats])
    have h2 := h pdpPat (by simp [allPats])
    have h3 := h searchPat (by simp [allPats])
    have h4 := h categoryPat (by simp [allPats])
    have h5 := h recPat (by simp [allPats])
    have h6 := h rcmdItemsPat (by simp [allPats])
    have h7 := h listByCatPat (by simp [allPats])
    have h8 := h shopTabPat (by simp [allPats])
    have h9 := h homepagePat (by simp [allPats])
    simp [classify, h1, h2, h3, h4, h5, h6, h7, h8, h9]

/-- Witness URLs for classify_exclusive. -/
def wSearchUrl : String := "https://shopee.co.id/api/v4/search/search_items?keyword=tas"

/-- Witness category URL containing the generic recommend substring. -/
def wCategoryUrl : String := "https://shopee.co.id/api/v4/recommend/recommend_v2?bundle=c"

/-- Witness unrelated URL matching no known endpoint. -/
def wOtherUrl : String := "https://shopee.co.id/api/v4/account/basic_info"

/-- Witness for classify_exclusive at a search URL, a category URL and an
unmatched URL. -/
theorem classify_exclusive_witness :
    (Kind.search ∈ classify wSearchUrl ∧ Kind.products ∉ classify wSearchUrl) ∧
    (Kind.category ∈ classify wCategoryUrl ∧ Kind.products ∉ classify wCategoryUrl) ∧
    classify wOtherUrl = [] :=
  ⟨(classify_exclusive.2 wSearchUrl).1 (by decide),
   (classify_exclusive.2 wCategoryUrl).2.2.1 (by decide) (by decide),
   (classify_exclusive.2 wOtherUrl).2.2.2 (by decide)⟩

/-! ## Resolver retry policy and termination (claim C8) -/

theorem resolveGo_attempts_le (oracle : ℕ → FetchOutcome) :
    ∀ fuel rc : ℕ, (resolveGo oracle rc fuel).attempts ≤ fuel := by
  intro fuel
  induction fuel with
  | zero => intro rc; simp [resolveGo]
  | succ f ih =>
    intro rc
    cases hoc : oracle rc with
    | success => simp [resolveGo, hoc]
    | failure msg =>
      by_cases hif : isTransient msg = true ∧ rc < MAX_RETRIES
      · have := ih (rc + 1)
        simp only [resolveGo, hoc, hif, if_true, and_self]
        omega
      · simp [resolveGo, hoc, hif]

theorem resolveGo_attempts_pos (oracle : ℕ → FetchOutcome) :
    ∀ fuel rc : ℕ, 0 < fuel → 1 ≤ (resolveGo oracle rc fuel).attempts := by
  intro fuel rc hf
  rcases fuel with _ | f
  · omega
  cases hoc : oracle rc with
  | success => simp [resolveGo, hoc]
  | failure msg =>
    by_cases hif : isTransient msg = true ∧ rc < MAX_RETRIES
    · simp only [resolveGo, hoc, hif, and_self, if_true]
      omega
    · simp [resolveGo, hoc, hif]

theorem resolveGo_delays (oracle : ℕ → FetchOutcome) :
    ∀ fuel rc : ℕ, 0 < fuel → MAX_RETRIES + 1 ≤ rc + fuel →
      (resolveGo oracle rc fuel).delays =
        (if rc = 0 then [100] else []) ++
          List.replicate ((resolveGo oracle rc fuel).attempts - 1) RETRY_DELAY := by
  intro fuel
  induction fuel with
  | zero => intro rc hf; omega
  | succ f ih =>
    intro rc _ hinv
    cases hoc : oracle rc with
    | success => simp [resolveGo, hoc]
    | failure msg =>
      by_cases hif : isTransient msg = true ∧ rc < MAX_RETRIES
      · have hfpos : 0 < f := by
          have h2 := hif.2
          simp only [MAX_RETRIES] at h2 hinv
          omega
        have hrec := ih (rc + 1) hfpos (by omega)
        have hpos := resolveGo_attempts_pos oracle f (rc + 1) hfpos
        simp only [resolveGo, hoc, hif, and_self, if_true]
        rw [hrec]
        simp only [Nat.add_eq_zero, one_ne_zero, and_false, if_false,
          List.nil_append]
        obtain ⟨k, hk⟩ : ∃ k, (resolveGo oracle (rc + 1) f).attempts = k + 1 :=
          ⟨(resolveGo oracle (rc + 1) f).attempts - 1, by omega⟩
        rw [hk]
        simp [List.replicate_succ]
      · simp [resolveGo, hoc, hif]

theorem resolveGo_transient (oracle : ℕ → FetchOutcome) :
    ∀ fuel rc i : ℕ, i + 1 < (resolveGo oracle rc fuel).attempts →
      ∃ m, oracle (rc + i) = FetchOutcome.failure m ∧ isTransient m = true := by
  intro fuel
  induction fuel with
  | zero => intro rc i h; simp [resolveGo] at h
  | succ f ih =>
    intro rc i h
    cases hoc : oracle rc with
    | success => simp [resolveGo, hoc] at h
    | failure msg =>
      by_cases hif : isTransient msg = true ∧ rc < MAX_RETRIES
      · simp only [resolveGo, hoc, hif, and_self, if_true] at h
        cases i with
        | zero => exact ⟨msg, by simpa using hoc, hif.1⟩
        | succ j =>
          have hj : j + 1 < (resolveGo oracle (rc + 1) f).attempts := by omega
          have := ih (rc + 1) j hj
          have harith : rc + (j + 1) = rc + 1 + j := by omega
          rw [harith]
          exact this
      · simp [resolveGo, hoc, hif] at h

theorem resolveGo_success_iff (oracle : ℕ → FetchOutcome) :
    ∀ fuel rc : ℕ, 0 < fuel → MAX_RETRIES + 1 ≤ rc + fuel →
      ((resolveGo oracle rc fuel).success = true ↔
        oracle (rc + ((resolveGo oracle rc fuel).attempts - 1)) =
          FetchOutcome.success) := by
  intro fuel
  induction fuel with
  | zero => intro rc hf; omega
  | succ f ih =>
    intro rc _ hinv
    cases hoc : oracle rc with
    | success => simp [resolveGo, hoc]
    | failure msg =>
      by_cases hif : isTransient msg = true ∧ rc < MAX_RETRIES
      · have hfpos : 0 < f := by
          have h2 := hif.2
          simp only [MAX_RETRIES] at h2 hinv
          omega
        have hrec := ih (rc + 1) hfpos (by omega)
        have hpos := resolveGo_attempts_pos oracle f (rc + 1) hfpos
        simp only [resolveGo, hoc, hif, and_self, if_true]
        rw [hrec]
        have harith : rc + 1 + ((resolveGo oracle (rc + 1) f).attempts - 1) =
            rc + (1 + (resolveGo oracle (rc + 1) f).attempts - 1) := by omega
        rw [harith]
      · simp [resolveGo, hoc, hif]

/-- C8: for every oracle of attempt outcomes, the resolver makes between 1
and MAX_RETRIES + 1 = 4 attempts, awaits the fixed 100ms delay before the
first attempt only and the fixed RETRY_DELAY = 200ms before each retry (no
exponential backoff), every non-final attempt failed with a message
containing "No data found" (so success and any other failure are terminal
without retry), and the recorded outcome is success exactly when the last
attempt succeeded - the trace is returned, never thrown. -/
theorem getResponseBody_retry_policy :
    ∀ oracle : ℕ → FetchOutcome,
      (1 ≤ (resolve oracle).attempts ∧ (resolve oracle).attempts ≤ MAX_RETRIES + 1) ∧
      (resolve oracle).delays =
        100 :: List.replicate ((resolve oracle).attempts - 1) RETRY_DELAY ∧
      (∀ i, i + 1 < (resolve oracle).attempts →
        ∃ m, oracle i = FetchOutcome.failure m ∧ isTransient m = true) ∧
      ((resolve oracle).success = true ↔
        oracle ((resolve oracle).attempts - 1) = FetchOutcome.success) := by
  intro oracle
  refine ⟨⟨resolveGo_attempts_pos oracle _ 0 (by norm_num),
      resolveGo_attempts_le oracle _ 0⟩, ?_, ?_, ?_⟩
  · have := resolveGo_delays oracle (MAX_RETRIES + 1) 0 (by norm_num) (by omega)
    simpa [resolve] using this
  · intro i h
    have := resolveGo_transient oracle (MAX_RETRIES + 1) 0 i (by simpa [resolve] using h)
    simpa using this
  · have := resolveGo_success_iff oracle (MAX_RETRIES + 1) 0 (by norm_num) (by omega)
    simpa [resolve] using this

/-- Witness oracle: a transient failure followed by success. -/
def wOracle : ℕ → FetchOutcome :=
  fun i => if i = 0 then FetchOutcome.failure "Error: No data found" else
    FetchOutcome.success

/-- Witness for getResponseBody_retry_policy: the first attempt of the
witness oracle failed transiently, and the run succeeded on its final
attempt. -/
theorem getResponseBody_retry_policy_witness :
    (∃ m, wOracle 0 = FetchOutcome.failure m ∧ isTransient m = true) ∧
    ((resolve wOracle).success = true ↔
      wOracle ((resolve wOracle).attempts - 1) = FetchOutcome.success) :=
  ⟨(getResponseBody_retry_policy wOracle).2.2.1 0 (by decide),
   (getResponseBody_retry_policy wOracle).2.2.2⟩

/-! ## Price rescale (claims C1, C9, C7) -/

theorem orQ_of_eq_zero {a b : ℚ} (h : a = 0) : orQ a b = b := by
  simp [orQ, h]

theorem orQ_of_ne_zero {a b : ℚ} (h : a ≠ 0) : orQ a b = a := by
  simp [orQ, h]

/-- Item whose main display price is in the scaled range while its
strikethrough price is not. -/
def ceItem : RawItem := { itemid := 1, disp_price := 2500000, disp_strike := 50000 }

/-- Counterexample to C1 as stated: the input strikethrough price value
50000 is not above 1000000 and yet is not left unchanged - because the main
price 2500000 exceeds the threshold, the strikethrough is divided too and
surfaces as original_price = 0.5. -/
theorem price_rescale_counterexample :
    ceItem.disp_strike = 50000 ∧ (50000 : ℚ) ≤ 1000000 ∧
    (mkProduct ceItem).original_price = 1 / 2 ∧
    (mkProduct ceItem).original_price ≠ 50000 := by
  refine ⟨rfl, by norm_num, ?_, ?_⟩ <;>
    norm_num [mkProduct, orQ, ceItem]

/-- C1 (amended): in product-list and category normalization the selected
main price value is divided by 100000 when it exceeds 1000000 and left
unchanged otherwise (2500000 becomes 25, 50000 stays 50000); the
strikethrough price follows the main price's branch (see the coupled-rescale
theorem). -/
theorem price_rescale_main :
    (∀ it : RawItem,
      (orQ it.disp_price it.flat_price > 1000000 →
        (mkProduct it).price = orQ it.disp_price it.flat_price / 100000) ∧
      (orQ it.disp_price it.flat_price ≤ 1000000 →
        (mkProduct it).price = orQ it.disp_price it.flat_price)) ∧
    (∀ ui : CatUnitItem,
      (ui.item_data.disp_price > 1000000 →
        (mkCatProduct ui).price = ui.item_data.disp_price / 100000) ∧
      (ui.item_data.disp_price ≤ 1000000 →
        (mkCatProduct ui).price = ui.item_data.disp_price)) ∧
    (mkProduct { itemid := 1, disp_price := 2500000 }).price = 25 ∧
    (mkProduct { itemid := 1, disp_price := 50000 }).price = 50000 := by
  refine ⟨?_, ?_, ?_, ?_⟩
  · intro it
    constructor
    · intro h
      simp only [mkProduct]
      rw [if_pos h]
    · intro h
      simp only [mkProduct]
      rw [if_neg (not_lt.mpr h)]
  · intro ui
    constructor
    · intro h
      simp only [mkCatProduct]
      rw [if_pos h]
    · intro h
      simp only [mkCatProduct]
      rw [if_neg (not_lt.mpr h)]
  · norm_num [mkProduct, orQ]
  · norm_num [mkProduct, orQ]

/-- Witness raw item with a small in-range price. -/
def wRaw500 : RawItem := { itemid := 2, disp_price := 500 }

/-- Witness for price_rescale_main at the in-range item. -/
theorem price_rescale_main_witness :
    (mkProduct wRaw500).price = orQ wRaw500.disp_price wRaw500.flat_price :=
  (price_rescale_main.1 wRaw500).2 (by decide)

/-- C9: the strikethrough price is divided by 100000 exactly when the main
price exceeds 1000000 (its own magnitude is never consulted), the emitted
original_price is the rescaled strikethrough when nonzero and the rescaled
price otherwise, and therefore original_price is nonzero whenever price is. -/
theorem strikethrough_coupled_rescale :
    ∀ it : RawItem,
      (orQ it.disp_price it.flat_price > 1000000 →
        (mkProduct it).original_price =
          orQ (it.disp_strike / 100000) (orQ it.disp_price it.flat_price / 100000)) ∧
      (orQ it.disp_price it.flat_price ≤ 1000000 →
        (mkProduct it).original_price =
          orQ it.disp_strike (orQ it.disp_price it.flat_price)) ∧
      ((mkProduct it).price ≠ 0 → (mkProduct it).original_price ≠ 0) := by
  intro it
  refine ⟨?_, ?_, ?_⟩
  · intro h
    simp only [mkProduct]
    rw [if_pos h, if_pos h]
  · intro h
    simp only [mkProduct]
    rw [if_neg (not_lt.mpr h), if_neg (not_lt.mpr h)]
  · intro hp
    have hre : (mkProduct it).original_price =
        orQ (if orQ it.disp_price it.flat_price > 1000000 then it.disp_strike / 100000
          else it.disp_strike) ((mkProduct it).price) := rfl
    rw [hre]
    by_cases h0 :
        (if orQ it.disp_price it.flat_price > 1000000 then it.disp_strike / 100000
          else it.disp_strike) = 0
    · rw [orQ_of_eq_zero h0]
      exact hp
    · rw [orQ_of_ne_zero h0]
      exact h0

/-- Witness for strikethrough_coupled_rescale at the in-range item. -/
theorem strikethrough_coupled_rescale_witness :
    (mkProduct wRaw500).original_price =
        orQ wRaw500.disp_strike (orQ wRaw500.disp_price wRaw500.flat_price) ∧
      (mkProduct wRaw500).original_price ≠ 0 :=
  ⟨(strikethrough_coupled_rescale wRaw500).2.1 (by decide),
   (strikethrough_coupled_rescale wRaw500).2.2 (by decide)⟩

/-- PDP item whose price is in the normal range. -/
def cePdpItem : RawPdpItem := { item_id := 1, price := 50000 }

/-- Counterexample to C7 as stated: a PDP price of 50000 (at most 1000000)
is not left untouched - the pdp branch divides every truthy price by 100000
and emits 0.5. -/
theorem pdp_rescale_counterexample :
    cePdpItem.price = 50000 ∧ (50000 : ℚ) ≤ 1000000 ∧
    (processPdp cePdpItem).price = 1 / 2 ∧
    (processPdp cePdpItem).price ≠ 50000 := by
  refine ⟨rfl, by norm_num, ?_, ?_⟩ <;>
    norm_num [processPdp, cePdpItem]

/-- C7 (amended): PDP normalization divides every nonzero price value -
price, price_min, price_max, price_before_discount and each variant's price
and price_before_discount - by 100000 unconditionally, regardless of
magnitude; zero or missing values are emitted as 0. -/
theorem pdp_rescale_unconditional :
    ∀ item : RawPdpItem,
      (processPdp item).price = pdpRescale item.price ∧
      (processPdp item).price_min = pdpRescale item.price_min ∧
      (processPdp item).price_max = pdpRescale item.price_max ∧
      (processPdp item).price_before_discount = pdpRescale item.price_before_discount ∧
      (processPdp item).models.map PdpModelOut.price =
        item.models.map (fun m => pdpRescale m.price) ∧
      (processPdp item).models.map PdpModelOut.price_before_discount =
        item.models.map (fun m => pdpRescale m.price_before_discount) := by
  intro item
  refine ⟨rfl, rfl, rfl, rfl, ?_, ?_⟩ <;>
    simp only [processPdp, List.map_map] <;> rfl

/-! ## Empty captures never overwrite a cache (claim C10) -/

/-- C10: a search capture from which zero items are extracted leaves the
search cache untouched (value and timestamp) and pushes nothing, and a
category capture with an empty units list likewise; a capture with at least
one extracted item (search) or unit (category) replaces the cache
wholesale. -/
theorem empty_capture_preserves_cache :
    (∀ (cache : Option SearchCache) (b : RawSearchBody) (now : ℕ),
      ((extractSearch b).1 = [] → searchCapture cache b now = (cache, none)) ∧
      ((extractSearch b).1 ≠ [] →
        searchCapture cache b now =
          (some { items := (extractSearch b).1, totalCount := (extractSearch b).2,
                  timestamp := now },
           some { items := (extractSearch b).1, totalCount := (extractSearch b).2,
                  timestamp := now }))) ∧
    (∀ (cache : Option CatCache) (units : List RawUnit) (total now : ℕ),
      (units = [] → catCapture cache units total now = (cache, none)) ∧
      (units ≠ [] →
        catCapture cache units total now =
          (some { products := (processCategory units).1,
                  officialStores := (processCategory units).2,
                  totalCount := total, timestamp := now },
           some { products := (processCategory units).1,
                  officialStores := (processCategory units).2,
                  totalCount := total, timestamp := now }))) := by
  constructor
  · intro cache b now
    constructor
    · intro h
      simp [searchCapture, h]
    · intro h
      simp [searchCapture, List.length_pos.mpr h]
  · intro cache units total now
    constructor
    · intro h
      simp [catCapture, h]
    · intro h
      simp [catCapture, List.length_pos.mpr h]

/-- Witness caches that an empty capture must leave alone. -/
def wSearchCache : SearchCache := { items := [wItem], totalCount := 9, timestamp := 1 }

/-- Witness category cache. -/
def wCatCache : CatCache :=
  { products := [], officialStores := [], totalCount := 4, timestamp := 2 }

/-- Witness for empty_capture_preserves_cache: an item-free search body and
an empty units list leave the caches and push nothing. -/
theorem empty_capture_preserves_cache_witness :
    searchCapture (some wSearchCache) ({} : RawSearchBody) 5 =
        (some wSearchCache, none) ∧
      catCapture (some wCatCache) [] 3 5 = (some wCatCache, none) :=
  ⟨(empty_capture_preserves_cache.1 (some wSearchCache) ({} : RawSearchBody) 5).1
      (by decide),
   (empty_capture_preserves_cache.2 (some wCatCache) [] 3 5).1 rfl⟩

end WinStore

